import Mathlib

/-!
Shallow embedding of the Query Replay & Execution-Plan Diagnostic Engine
(the `/api/profiler/explain` route and its helper functions, plus the
trend-side profiler schema utilities).

Modelling conventions:
* JavaScript objects whose concrete values are irrelevant to the verified
  properties (filter documents, pipeline stages) are modelled as association
  lists from field names to printable values (`Doc`).
* Numeric counters are `Nat`; JavaScript treats both `0` and an absent field
  as falsy under `||`, so an absent counter is identified with `0` and
  `a || b` on counters becomes `jsOr`.
* Optional object-valued fields are `Option _`; a present object (even an
  empty one) is truthy in JavaScript, which `Option.orElse` reflects.
* Floating-point arithmetic is modelled exactly over `ℚ`; `Math.round` is
  round-half-up (`⌊q + 1/2⌋`), which is its behaviour on non-negative input.
-/

/-- Association-list model of a JSON document (field name to value). -/
abbrev Doc := List (String × String)

/-- JavaScript `a || b` on numeric counters: `0` (or absent, identified with
`0`) falls through to the right operand. -/
def jsOr (a b : Nat) : Nat := if a = 0 then b else a

/-- JavaScript `Math.round` on a non-negative exact rational: round half up. -/
def jsMathRound (q : ℚ) : ℤ := ⌊q + 1/2⌋

/-- Value of a logged `pipeline` field: either a JavaScript array of stage
documents (arrays are always truthy, even when empty) or some non-array
value together with its truthiness. -/
inductive PipeVal where
  | arr (stages : List Doc)
  | other (truthy : Bool)
deriving DecidableEq

/-- Document identifier of a profiler record: either a real ObjectId (held as
its 24-character hex form) or a plain string identifier. -/
inductive MongoId where
  | oid (hex : String)
  | strId (s : String)
deriving BEq, DecidableEq

/-- Logged command payload of a profiled operation, with every field the
explain route consults.  Absent fields are `none`. -/
structure Command where
  filter : Option Doc := none
  query : Option Doc := none
  q : Option Doc := none
  u : Option Doc := none
  update : Option Doc := none
  sort : Option Doc := none
  limit : Option Nat := none
  skip : Option Nat := none
  comment : Option String := none
  pipeline : Option PipeVal := none
deriving DecidableEq

/-- ProfiledOperation: a record of `system.profile` as the route reads it. -/
structure ProfileDoc where
  idVal : MongoId
  op : String
  ns : String
  command : Command
  millis : Nat := 0
  keysExamined : Nat := 0
  docsExamined : Nat := 0
  docsReturned : Nat := 0
  ts : Option String := none
  planSummary : Option String := none
  client : Option String := none
  user : Option String := none
deriving DecidableEq

/-- Per-node scalar data of a raw explain stage.  Counters absent in the raw
plan are identified with `0`, absent names with `none`. -/
structure StageData where
  stage : String
  executionTimeMillisEstimate : Nat := 0
  works : Nat := 0
  advanced : Nat := 0
  needTime : Nat := 0
  needYield : Nat := 0
  isEOF : Bool := false
  indexName : Option String := none
  direction : Option String := none
  docsExamined : Nat := 0
  keysExamined : Nat := 0
deriving DecidableEq

/-- RawStageNode: a node of the stage tree returned by explain, with the
single-child (`inputStage`) and fan-in (`inputStages`) links kept distinct
exactly as in the raw plan. -/
inductive RawStage where
  | node (data : StageData) (inputStage : Option RawStage) (inputStages : List RawStage)

/-- Top-level summary counters of `executionStats`, plus the root stage. -/
structure ExecStats where
  executionTimeMillis : Nat := 0
  totalKeysExamined : Nat := 0
  totalDocsExamined : Nat := 0
  totalDocsReturned : Nat := 0
  executionStages : Option RawStage := none

instance : Inhabited ExecStats := ⟨{}⟩

/-- Raw result of the explain call as the route consumes it. -/
structure ExplainResult where
  executionStats : Option ExecStats := none
  queryPlanner : Doc := []
  serverInfo : Doc := []

/-- Scalar data of the stage tree root, used to state traversal properties. -/
def RawStage.dataOf : RawStage → StageData
  | .node d _ _ => d

/-- Children of a stage node in visit order: the single `inputStage` link (if
present) first, then the `inputStages` list in its given order. -/
def RawStage.childrenOf : RawStage → List RawStage
  | .node _ i cs =>
    (match i with
     | some c => [c]
     | none => []) ++ cs

mutual

/-- Total node count of a raw stage tree. -/
def nodeCount : RawStage → Nat
  | .node _ i cs => 1 + nodeCountOpt i + nodeCountList cs

/-- Total node count under an optional `inputStage` link. -/
def nodeCountOpt : Option RawStage → Nat
  | none => 0
  | some c => nodeCount c

/-- Total node count of an `inputStages` list. -/
def nodeCountList : List RawStage → Nat
  | [] => 0
  | c :: cs => nodeCount c + nodeCountList cs

end

mutual

/-- Traversal of `extractIndexesUsed`: push the node's `indexName` when
present, then recurse into `inputStage`, then into every `inputStages`
entry, in order. -/
def collectIndexNames : RawStage → List String
  | .node d i cs =>
    (match d.indexName with
     | some n => [n]
     | none => []) ++ collectIndexNamesOpt i ++ collectIndexNamesList cs

/-- Index-name traversal of an optional `inputStage` link. -/
def collectIndexNamesOpt : Option RawStage → List String
  | none => []
  | some c => collectIndexNames c

/-- Index-name traversal of an `inputStages` list. -/
def collectIndexNamesList : List RawStage → List String
  | [] => []
  | c :: cs => collectIndexNames c ++ collectIndexNamesList cs

end

/-- JavaScript `[...new Set(xs)]`: deduplicate keeping the first occurrence
of each element, preserving insertion order. -/
def jsSetDedup (xs : List String) : List String :=
  xs.foldl (fun acc x => if acc.contains x then acc else acc ++ [x]) []

/-- Contents of the `indexes` array before deduplication: the traversal runs
only when the explain result carries execution stages. -/
def collectedIndexNames (er : ExplainResult) : List String :=
  match er.executionStats with
  | some stats =>
    match stats.executionStages with
    | some t => collectIndexNames t
    | none => []
  | none => []

/-- Source `extractIndexesUsed`: traverse the execution stage tree (when the
explain result has one) collecting index names, then deduplicate as
`[...new Set(indexes)]` does. -/
def extractIndexesUsed (er : ExplainResult) : List String :=
  jsSetDedup (collectedIndexNames er)

mutual

/-- Source `checkForCollScan`: a node is a collection scan when its stage
name is COLLSCAN, or some node reachable through `inputStage` or
`inputStages` is. -/
def checkForCollScan : RawStage → Bool
  | .node d i cs =>
    (d.stage == "COLLSCAN") || checkForCollScanOpt i || checkForCollScanList cs

/-- Collection-scan check of an optional `inputStage` link. -/
def checkForCollScanOpt : Option RawStage → Bool
  | none => false
  | some c => checkForCollScan c

/-- Collection-scan check of an `inputStages` list (`Array.some`). -/
def checkForCollScanList : List RawStage → Bool
  | [] => false
  | c :: cs => checkForCollScan c || checkForCollScanList cs

end

/-- Source `isCollectionScan`: run the recursive check from the root stage
when the explain result carries execution stages, else `false`. -/
def isCollectionScan (er : ExplainResult) : Bool :=
  match er.executionStats with
  | some stats =>
    match stats.executionStages with
    | some t => checkForCollScan t
    | none => false
  | none => false

/-- One entry of the flattened stage list, carrying its depth. -/
structure StageEntry where
  stage : String
  depth : Nat
  executionTimeMillisEstimate : Nat
  works : Nat
  advanced : Nat
  needTime : Nat
  needYield : Nat
  isEOF : Bool
  indexName : Option String
  direction : Option String
  docsExamined : Nat
  keysExamined : Nat
deriving DecidableEq

/-- Entry pushed for one node of the stage tree at a given depth. -/
def mkStageEntry (d : StageData) (depth : Nat) : StageEntry :=
  { stage := d.stage
    depth := depth
    executionTimeMillisEstimate := d.executionTimeMillisEstimate
    works := d.works
    advanced := d.advanced
    needTime := d.needTime
    needYield := d.needYield
    isEOF := d.isEOF
    indexName := d.indexName
    direction := d.direction
    docsExamined := d.docsExamined
    keysExamined := d.keysExamined }

mutual

/-- Traversal of `extractExecutionStages`: push the node's entry, then visit
`inputStage` at depth + 1, then every `inputStages` entry at depth + 1. -/
def flattenStages : RawStage → Nat → List StageEntry
  | .node d i cs, depth =>
    mkStageEntry d depth :: (flattenStagesOpt i (depth + 1) ++ flattenStagesList cs (depth + 1))

/-- Flattening of an optional `inputStage` link. -/
def flattenStagesOpt : Option RawStage → Nat → List StageEntry
  | none, _ => []
  | some c, depth => flattenStages c depth

/-- Flattening of an `inputStages` list (`forEach`, in order). -/
def flattenStagesList : List RawStage → Nat → List StageEntry
  | [], _ => []
  | c :: cs, depth => flattenStages c depth ++ flattenStagesList cs depth

end

/-- Source `extractExecutionStages`: flatten the stage tree from depth 0 when
the explain result carries execution stages, else return the empty list. -/
def extractExecutionStages (er : ExplainResult) : List StageEntry :=
  match er.executionStats with
  | some stats =>
    match stats.executionStages with
    | some t => flattenStages t 0
    | none => []
  | none => []

/-- Source `calculateEfficiency`: examined and returned counters fall back
from the explain summary to the profiled operation's recorded metrics under
JavaScript `||`; the result is 100 when nothing was examined, 0 when nothing
was returned, else `Math.round((returned / examined) * 100)`. -/
def calculateEfficiency (er : ExplainResult) (doc : ProfileDoc) : ℤ :=
  let stats := er.executionStats.getD default
  let examined := jsOr stats.totalDocsExamined doc.docsExamined
  let returned := jsOr stats.totalDocsReturned doc.docsReturned
  if examined = 0 then 100
  else if returned = 0 then 0
  else jsMathRound ((returned : ℚ) / (examined : ℚ) * 100)

/-- One emitted tuning recommendation. -/
structure Recommendation where
  type : String
  priority : String
  message : String
  suggestedIndex : Option Doc := none
  reason : String
deriving DecidableEq

/-- JavaScript object spread of two documents: keys of the first in
order (values overridden by the second on collision), then keys of the second
not present in the first. -/
def jsSpread (a b : Doc) : Doc :=
  a.map (fun kv => (kv.1, (((b.find? (fun kv2 => kv2.1 == kv.1)).map Prod.snd).getD kv.2))) ++
    b.filter (fun kv2 => (a.find? (fun kv => kv.1 == kv2.1)).isNone)

/-- Effective filter the recommendation generator inspects:
`command.filter || command.query || command.q || ` the empty document. -/
def recommendationFilter (cmd : Command) : Doc :=
  ((cmd.filter <|> cmd.query) <|> cmd.q).getD []

/-- Source `generateIndexRecommendations`: under a collection scan emit the
missing-index rule (non-empty filter) then the sort-index rule (non-empty
sort); independently emit the low-efficiency rule from the explain summary
counters alone.  The low-efficiency message's interpolated percentage is
elided (no verified property depends on the message text). -/
def generateIndexRecommendations (er : ExplainResult) (cmd : Command) : List Recommendation :=
  let filter := recommendationFilter cmd
  let sort := cmd.sort.getD []
  let scanRecs :=
    if isCollectionScan er then
      (if 0 < filter.length then
        [{ type := "missing_index"
           priority := "high"
           message := "Consider creating an index on the query filter fields"
           suggestedIndex := some filter
           reason := "Collection scan detected - query is examining all documents" }]
       else []) ++
      (if 0 < sort.length then
        [{ type := "sort_index"
           priority := "medium"
           message := "Consider creating an index to support sorting"
           suggestedIndex := some (jsSpread filter sort)
           reason := "Sort operation may benefit from an index" }]
       else [])
    else []
  let stats := er.executionStats.getD default
  let examined := stats.totalDocsExamined
  let returned := stats.totalDocsReturned
  let lowEffRecs :=
    if 0 < examined ∧ 0 < returned ∧ (returned : ℚ) / (examined : ℚ) * 100 < 10 then
      [{ type := "low_efficiency"
         priority := "medium"
         message := "Query efficiency is low"
         suggestedIndex := none
         reason := "Examining many documents to return few results" }]
    else []
  scanRecs ++ lowEffRecs

/-- Performance block of the assembled explain plan. -/
structure Performance where
  executionTimeMillis : Nat
  totalKeysExamined : Nat
  totalDocsExamined : Nat
  totalDocsReturned : Nat
  indexesUsed : List String
  isCollectionScan : Bool
  efficiency : ℤ

/-- Performance block assembly: each summary counter falls back to the
profiled operation's recorded metric under JavaScript `||`. -/
def mkPerformance (er : ExplainResult) (doc : ProfileDoc) : Performance :=
  let stats := er.executionStats.getD default
  { executionTimeMillis := jsOr stats.executionTimeMillis doc.millis
    totalKeysExamined := jsOr stats.totalKeysExamined doc.keysExamined
    totalDocsExamined := jsOr stats.totalDocsExamined doc.docsExamined
    totalDocsReturned := jsOr stats.totalDocsReturned doc.docsReturned
    indexesUsed := extractIndexesUsed er
    isCollectionScan := isCollectionScan er
    efficiency := calculateEfficiency er doc }

/-- Profiler metadata repeated in both the full and the degraded response. -/
structure ProfilerMeta where
  timestamp : Option String
  executionTime : Nat
  planSummary : Option String
  client : Option String
  user : Option String
deriving DecidableEq

/-- Profiler metadata extracted from the located operation. -/
def mkProfilerMeta (doc : ProfileDoc) : ProfilerMeta :=
  { timestamp := doc.ts
    executionTime := doc.millis
    planSummary := doc.planSummary
    client := doc.client
    user := doc.user }

/-- Assembled explain plan of a fully successful diagnosis. -/
structure ExplainPlan where
  queryPlanner : Doc
  serverInfo : Doc
  performance : Performance
  recommendations : List Recommendation
  stages : List StageEntry

/-- Explain-plan assembly from the raw explain result. -/
def mkExplainPlan (er : ExplainResult) (doc : ProfileDoc) (cmd : Command) : ExplainPlan :=
  { queryPlanner := er.queryPlanner
    serverInfo := er.serverInfo
    performance := mkPerformance er doc
    recommendations := generateIndexRecommendations er cmd
    stages := extractExecutionStages er }

/-- Response body of the explain route once an operation has been located. -/
structure ExplainResponse where
  success : Bool
  errorMessage : Option String
  queryId : String
  namespaceStr : String
  operation : String
  originalQuery : Command
  profilerData : ProfilerMeta
  explainPlan : Option ExplainPlan

/-- Response assembly after location: a successful plan execution yields the
full diagnostic under `success := true`; a failed one yields the degraded
response that keeps the operation's identity and context, a null explain
plan, and the triggering error's message under `success := false`. -/
def respondExplain (queryId : String) (doc : ProfileDoc) (cmd : Command)
    (outcome : Except String ExplainResult) : ExplainResponse :=
  match outcome with
  | .ok er =>
    { success := true
      errorMessage := none
      queryId := queryId
      namespaceStr := doc.ns
      operation := doc.op
      originalQuery := cmd
      profilerData := mkProfilerMeta doc
      explainPlan := some (mkExplainPlan er doc cmd) }
  | .error msg =>
    { success := false
      errorMessage := some msg
      queryId := queryId
      namespaceStr := doc.ns
      operation := doc.op
      originalQuery := cmd
      profilerData := mkProfilerMeta doc
      explainPlan := none }

/-- Reconstructed executable descriptor, one variant per operation type. -/
inductive ExplainRequest where
  | find (filter : Doc) (sort : Doc) (limit : Nat) (skip : Nat)
  | update (filter : Doc) (updateSpec : Doc)
  | delete (filter : Doc)
  | count (filter : Doc)
  | aggregate (pipeline : List Doc)
deriving DecidableEq

/-- Operation-type dispatch of the explain route: the descriptor each switch
branch hands to the storage engine's explain call.  Only the `aggregate`
branch can fail, and it does so exactly when the logged `pipeline` is not a
JavaScript array (`command.pipeline && Array.isArray(command.pipeline)`);
every other branch degrades absent fields to empty documents or zeros. -/
def reconstructExplainRequest (op : String) (cmd : Command) : Except String ExplainRequest :=
  if op = "query" ∨ op = "find" then
    .ok (.find ((cmd.filter <|> cmd.query).getD []) (cmd.sort.getD [])
      (cmd.limit.getD 0) (cmd.skip.getD 0))
  else if op = "update" then
    .ok (.update ((cmd.q <|> cmd.filter).getD []) ((cmd.u <|> cmd.update).getD []))
  else if op = "delete" ∨ op = "remove" then
    .ok (.delete ((cmd.q <|> cmd.filter).getD []))
  else if op = "count" then
    .ok (.count ((cmd.query <|> cmd.filter).getD []))
  else if op = "aggregate" then
    match cmd.pipeline with
    | some (.arr stages) => .ok (.aggregate stages)
    | _ => .error "Invalid aggregation pipeline"
  else
    .ok (.find ((cmd.filter <|> cmd.query).getD []) [] 0 0)

/-- Whether the logged `pipeline` field passes the source's array check. -/
def isArrayPipeline (cmd : Command) : Bool :=
  match cmd.pipeline with
  | some (.arr _) => true
  | _ => false

/-- Hex digit as accepted by an ObjectId representation. -/
def isHexChar (c : Char) : Bool :=
  c.isDigit || (('a' ≤ c) && (c ≤ 'f')) || (('A' ≤ c) && (c ≤ 'F'))

/-- Whether `new ObjectId(s)` succeeds: `s` is a 24-character hex string. -/
def validObjectIdHex (s : String) : Bool :=
  (s.length == 24) && s.data.all isHexChar

/-- First lookup of the locator: `findOne` on `_id` equal to the ObjectId
built from the query identifier. -/
def findByObjectId (log : List ProfileDoc) (queryId : String) : Option ProfileDoc :=
  log.find? (fun d => decide (d.idVal = MongoId.oid queryId))

/-- Fallback lookup of the locator, reached only from the ObjectId
constructor's catch block: `findOne` on the disjunction of a literal string
`_id` and the command's free-text `comment` field. -/
def fallbackFind (log : List ProfileDoc) (queryId : String) : Option ProfileDoc :=
  log.find? (fun d =>
    decide (d.idVal = MongoId.strId queryId) || decide (d.command.comment = some queryId))

/-- Source locator: try the ObjectId lookup inside `try`; the `catch` (and
with it the fallback lookup) runs only when the ObjectId constructor throws,
i.e. when the identifier is not a valid ObjectId representation.  A valid
ObjectId whose lookup resolves to null does not reach the fallback. -/
def locateProfileDoc (log : List ProfileDoc) (queryId : String) : Option ProfileDoc :=
  if validObjectIdHex queryId then findByObjectId log queryId
  else fallbackFind log queryId

/-- Route step around the locator: a null document yields the 404 not-found
response, a located document continues the diagnosis. -/
def locateStep (log : List ProfileDoc) (queryId : String) : Except String ProfileDoc :=
  match locateProfileDoc log queryId with
  | some d => .ok d
  | none => .error "NotFoundError"

/-- Trend-side `calculateQueryEfficiency` of the profiler schema utilities:
100 when nothing was examined, 0 when nothing was returned, else
`(docsReturned / max(docsExamined, keysExamined)) * 100` clamped into
[0, 100], computed without rounding. -/
def calculateQueryEfficiency (doc : ProfileDoc) : ℚ :=
  if doc.docsExamined = 0 then 100
  else if doc.docsReturned = 0 then 0
  else
    min 100 (max 0
      ((doc.docsReturned : ℚ) / ((max doc.docsExamined doc.keysExamined : Nat) : ℚ) * 100))

/-- Canonical efficiency formula in the spec's words: rounded percentage of
returned over examined taken from the two given counters, 100 when examined
is 0, 0 when returned is 0. -/
def specEfficiency (docsExamined docsReturned : Nat) : ℤ :=
  if docsExamined = 0 then 100
  else if docsReturned = 0 then 0
  else jsMathRound (100 * (docsReturned : ℚ) / (docsExamined : ℚ))

/-- Spec-side predicate: the logged command contains a pipeline that is a
non-empty ordered sequence of stage documents. -/
def hasNonEmptyStagePipeline (cmd : Command) : Bool :=
  match cmd.pipeline with
  | some (.arr (_ :: _)) => true
  | _ => false

/-- Proof-side description of first-occurrence deduplication: keep the head,
drop its later duplicates, recurse. -/
def dedupFirst : List String → List String
  | [] => []
  | a :: l => a :: dedupFirst (l.filter (fun x => !(x == a)))
termination_by l => l.length
decreasing_by
  simp only [List.length_cons]
  exact Nat.lt_succ_of_le (List.length_filter_le _ _)

/-! Concrete sample records used to evaluate the definitions. -/

/-- Explain result with no `executionStats` at all (every summary counter
absent). -/
def erNone : ExplainResult := { executionStats := none }

/-- Explain result whose summary reports more documents returned than
examined. -/
def erOverUnity : ExplainResult :=
  { executionStats := some { totalDocsExamined := 1, totalDocsReturned := 5 } }

/-- Explain result with an ordinary selective summary. -/
def erHalf : ExplainResult :=
  { executionStats := some { totalDocsExamined := 50, totalDocsReturned := 5 } }

/-- Explain result whose summary matches examined and returned counts. -/
def erTrend : ExplainResult :=
  { executionStats := some { totalDocsExamined := 3, totalDocsReturned := 3 } }

/-- Profiled operation whose historical record examined 50 documents and
returned 5. -/
def docHist : ProfileDoc :=
  { idVal := .oid "cccccccccccccccccccccccc", op := "query", ns := "shop.orders",
    command := {}, millis := 420, docsExamined := 50, docsReturned := 5 }

/-- Profiled operation with all metrics zero. -/
def docBlank : ProfileDoc :=
  { idVal := .oid "eeeeeeeeeeeeeeeeeeeeeeee", op := "query", ns := "shop.orders",
    command := {} }

/-- Profiled operation with keysExamined larger than docsExamined. -/
def trendDoc : ProfileDoc :=
  { idVal := .oid "dddddddddddddddddddddddd", op := "query", ns := "shop.orders",
    command := {}, keysExamined := 10, docsExamined := 3, docsReturned := 3 }

/-- Aggregate command whose logged pipeline is the empty array. -/
def aggEmptyCmd : Command := { pipeline := some (.arr []) }

/-- Profiled operation whose ObjectId differs from the searched identifier
but whose command comment matches it. -/
def docCommentTrap : ProfileDoc :=
  { idVal := .oid "bbbbbbbbbbbbbbbbbbbbbbbb", op := "query", ns := "shop.orders",
    command := { comment := some "aaaaaaaaaaaaaaaaaaaaaaaa" } }

/-- Profiling log holding only the comment-trap operation. -/
def trapLog : List ProfileDoc := [docCommentTrap]

/-- Profiled operation carrying an operator-supplied comment tag. -/
def docTag : ProfileDoc :=
  { idVal := .strId "tag-1", op := "query", ns := "shop.orders",
    command := { comment := some "my-tag" } }

/-- Profiling log holding only the tagged operation. -/
def tagLog : List ProfileDoc := [docTag]

/-! Lemmas about first-occurrence deduplication. -/

theorem dedupFirst_cons (a : String) (l : List String) :
    dedupFirst (a :: l) = a :: dedupFirst (l.filter (fun x => !(x == a))) := by
  rw [dedupFirst]

theorem jsSetDedup_foldl (l : List String) : ∀ acc : List String,
    l.foldl (fun acc x => if acc.contains x then acc else acc ++ [x]) acc =
      acc ++ dedupFirst (l.filter (fun x => !(acc.contains x))) := by
  induction l with
  | nil => intro acc; simp [dedupFirst]
  | cons a l ih =>
    intro acc
    by_cases h : acc.contains a
    · have hb : acc.contains a = true := by simpa using h
      simp only [List.foldl_cons, hb, if_true, List.filter_cons, Bool.not_true,
        Bool.false_eq_true, if_false]
      exact ih acc
    · have hb : acc.contains a = false := by simpa using h
      simp only [List.foldl_cons, hb, Bool.false_eq_true, if_false, Bool.not_false,
        List.filter_cons, if_true]
      rw [ih (acc ++ [a]), dedupFirst_cons, List.filter_filter]
      have hpred : ∀ x ∈ l, (!(acc ++ [a]).contains x) = ((!(x == a)) && (!(acc.contains x))) := by
        intro x _
        simp only [List.contains, List.elem_eq_mem, List.mem_append, List.mem_singleton]
        by_cases hx : x = a
        · simp [hx]
        · simp [hx]
      rw [List.filter_congr hpred]
      simp

theorem jsSetDedup_eq_dedupFirst (l : List String) : jsSetDedup l = dedupFirst l := by
  rw [jsSetDedup, jsSetDedup_foldl l []]
  simp

theorem mem_dedupFirst (x : String) (l : List String) : x ∈ dedupFirst l ↔ x ∈ l := by
  induction l using dedupFirst.induct with
  | case1 => simp [dedupFirst]
  | case2 a l ih =>
    rw [dedupFirst_cons]
    simp only [List.mem_cons, ih, List.mem_filter]
    by_cases hx : x = a
    · simp [hx]
    · simp [hx]

theorem nodup_dedupFirst (l : List String) : (dedupFirst l).Nodup := by
  induction l using dedupFirst.induct with
  | case1 => simp [dedupFirst]
  | case2 a l ih =>
    rw [dedupFirst_cons]
    refine List.nodup_cons.mpr ⟨?_, ih⟩
    intro hmem
    have := (mem_dedupFirst a _).mp hmem
    simp at this

theorem indexOf_filter_lt (p : String → Bool) (l : List String) (x y : String)
    (hx : x ∈ l.filter p) (hy : y ∈ l.filter p)
    (h : (l.filter p).indexOf x < (l.filter p).indexOf y) :
    l.indexOf x < l.indexOf y := by
  induction l with
  | nil => simp at hx
  | cons b l ih =>
    by_cases hpb : p b
    · rw [List.filter_cons_of_pos hpb] at hx hy h
      by_cases hxb : x = b
      · subst hxb
        have hyb : y ≠ x := by
          intro hyx
          subst hyx
          simp at h
        rw [List.indexOf_cons_self] at *
        rw [List.indexOf_cons_ne _ (fun hbx => hyb hbx.symm)]
        exact Nat.succ_pos _
      · have hyb : y ≠ b := by
          intro hyx
          subst hyx
          rw [List.indexOf_cons_self] at h
          simp at h
        rw [List.indexOf_cons_ne _ (fun hbx => hxb hbx.symm),
          List.indexOf_cons_ne _ (fun hby => hyb hby.symm)] at h
        have hx' : x ∈ l.filter p := by
          rcases List.mem_cons.mp hx with h1 | h1
          · exact absurd h1 hxb
          · exact h1
        have hy' : y ∈ l.filter p := by
          rcases List.mem_cons.mp hy with h1 | h1
          · exact absurd h1 hyb
          · exact h1
        have := ih hx' hy' (Nat.lt_of_succ_lt_succ h)
        rw [List.indexOf_cons_ne _ (fun hbx => hxb hbx.symm),
          List.indexOf_cons_ne _ (fun hby => hyb hby.symm)]
        exact Nat.succ_lt_succ this
    · rw [List.filter_cons_of_neg hpb] at hx hy h
      have hxb : x ≠ b := by
        intro hxb
        subst hxb
        have := List.of_mem_filter hx
        exact hpb this
      have hyb : y ≠ b := by
        intro hyb
        subst hyb
        have := List.of_mem_filter hy
        exact hpb this
      have := ih hx hy h
      rw [List.indexOf_cons_ne _ (fun hbx => hxb hbx.symm),
        List.indexOf_cons_ne _ (fun hby => hyb hby.symm)]
      exact Nat.succ_lt_succ this

theorem pairwise_indexOf_dedupFirst (l : List String) :
    (dedupFirst l).Pairwise (fun x y => l.indexOf x < l.indexOf y) := by
  induction l using dedupFirst.induct with
  | case1 => simp [dedupFirst]
  | case2 a l ih =>
    rw [dedupFirst_cons]
    refine List.pairwise_cons.mpr ⟨?_, ?_⟩
    · intro y hy
      have hy' : y ∈ l.filter (fun x => !(x == a)) := (mem_dedupFirst _ _).mp hy
      have hya : y ≠ a := by
        have := List.of_mem_filter hy'
        simpa using this
      rw [List.indexOf_cons_self, List.indexOf_cons_ne _ (fun hay => hya hay.symm)]
      exact Nat.succ_pos _
    · refine List.Pairwise.imp_of_mem ?_ ih
      intro x y hx hy hlt
      have hx' : x ∈ l.filter (fun t => !(t == a)) := (mem_dedupFirst _ _).mp hx
      have hy' : y ∈ l.filter (fun t => !(t == a)) := (mem_dedupFirst _ _).mp hy
      have hxa : x ≠ a := by
        have := List.of_mem_filter hx'
        simpa using this
      have hya : y ≠ a := by
        have := List.of_mem_filter hy'
        simpa using this
      have := indexOf_filter_lt _ l x y hx' hy' hlt
      rw [List.indexOf_cons_ne _ (fun hax => hxa hax.symm),
        List.indexOf_cons_ne _ (fun hay => hya hay.symm)]
      exact Nat.succ_lt_succ this

/-! Lemmas about the stage-tree traversals. -/

theorem flattenStagesList_eq_join (cs : List RawStage) (d : Nat) :
    flattenStagesList cs d = (cs.map (fun c => flattenStages c d)).flatten := by
  induction cs with
  | nil => simp [flattenStagesList]
  | cons c cs ih => simp [flattenStagesList, ih]

theorem flattenStagesOpt_eq_join (i : Option RawStage) (d : Nat) :
    flattenStagesOpt i d =
      ((match i with
        | some c => [c]
        | none => []).map (fun c => flattenStages c d)).flatten := by
  cases i <;> simp [flattenStagesOpt]

mutual

theorem flattenStages_length : ∀ (t : RawStage) (d : Nat),
    (flattenStages t d).length = nodeCount t
  | .node data i cs, d => by
    simp only [flattenStages, nodeCount, List.length_cons, List.length_append]
    rw [flattenStagesOpt_length i (d + 1), flattenStagesList_length cs (d + 1)]
    omega

theorem flattenStagesOpt_length : ∀ (i : Option RawStage) (d : Nat),
    (flattenStagesOpt i d).length = nodeCountOpt i
  | none, _ => by simp [flattenStagesOpt, nodeCountOpt]
  | some c, d => by
    simp only [flattenStagesOpt, nodeCountOpt]
    exact flattenStages_length c d

theorem flattenStagesList_length : ∀ (cs : List RawStage) (d : Nat),
    (flattenStagesList cs d).length = nodeCountList cs
  | [], _ => by simp [flattenStagesList, nodeCountList]
  | c :: cs, d => by
    simp only [flattenStagesList, nodeCountList, List.length_append]
    rw [flattenStages_length c d, flattenStagesList_length cs d]

end

theorem flattenStages_pre_order (t : RawStage) (d : Nat) :
    flattenStages t d =
      mkStageEntry t.dataOf d :: ((t.childrenOf).map (fun c => flattenStages c (d + 1))).flatten := by
  cases t with
  | node data i cs =>
    simp only [flattenStages, RawStage.dataOf, RawStage.childrenOf, List.map_append,
      List.flatten_append, flattenStagesOpt_eq_join, flattenStagesList_eq_join]

/-! Bridge between the route's efficiency computation and the canonical
spec formula applied to the effective (fallen-back) counters. -/

theorem calculateEfficiency_eq_spec (er : ExplainResult) (doc : ProfileDoc) :
    calculateEfficiency er doc =
      specEfficiency (jsOr (er.executionStats.getD default).totalDocsExamined doc.docsExamined)
        (jsOr (er.executionStats.getD default).totalDocsReturned doc.docsReturned) := by
  simp only [calculateEfficiency, specEfficiency]
  split_ifs with h1 h2
  · rfl
  · rfl
  · congr 1
    ring

/-! Bounds of the canonical spec efficiency formula. -/

theorem specEfficiency_nonneg (e r : Nat) : 0 ≤ specEfficiency e r := by
  unfold specEfficiency
  split_ifs with h1 h2
  · norm_num
  · norm_num
  · unfold jsMathRound
    refine Int.le_floor.mpr ?_
    push_cast
    positivity

theorem specEfficiency_le_100 (e r : Nat) (h : r ≤ e) : specEfficiency e r ≤ 100 := by
  unfold specEfficiency
  split_ifs with h1 h2
  · norm_num
  · norm_num
  · unfold jsMathRound
    have he : (0 : ℚ) < (e : ℚ) := by
      exact_mod_cast Nat.pos_of_ne_zero h1
    have hq : 100 * (r : ℚ) / (e : ℚ) ≤ 100 := by
      rw [div_le_iff₀ he]
      have : (r : ℚ) ≤ (e : ℚ) := by exact_mod_cast h
      nlinarith
    have : (⌊100 * (r : ℚ) / (e : ℚ) + 1 / 2⌋ : ℤ) < 101 := by
      refine Int.floor_lt.mpr ?_
      push_cast
      linarith
    omega

/-- C1: the claim reads the efficiency inputs from the explain result's
top-level summary counters alone; the code lets each counter fall back to
the profiled operation's recorded metric when the summary counter is 0 or
absent.  With absent summary counters and a selective historical record
(50 examined, 5 returned) the code reports 10 while the claimed
top-level-only formula (docsExamined = 0 there) fixes 100. -/
theorem claim1_counterexample :
    calculateEfficiency erNone docHist ≠
      specEfficiency (erNone.executionStats.getD default).totalDocsExamined
        (erNone.executionStats.getD default).totalDocsReturned := by
  have h1 : calculateEfficiency erNone docHist = 10 := by
    show jsMathRound ((((5 : Nat) : ℚ)) / (((50 : Nat) : ℚ)) * 100) = 10
    unfold jsMathRound
    norm_num
  have h2 : specEfficiency (erNone.executionStats.getD default).totalDocsExamined
      (erNone.executionStats.getD default).totalDocsReturned = 100 := by
    rfl
  rw [h1]
  show (10 : ℤ) ≠ specEfficiency 0 0
  unfold specEfficiency
  norm_num

/-- C1 (amended): the Diagnostic's efficiency equals the canonical rounded
formula applied to the effective counters, where each effective counter is
the top-level summary counter when nonzero and otherwise falls back to the
profiled operation's recorded metric; the special cases 100 (nothing
examined) and 0 (nothing returned) apply to those effective counters. -/
theorem claim1_efficiency_formula (er : ExplainResult) (doc : ProfileDoc) :
    calculateEfficiency er doc =
      specEfficiency (jsOr (er.executionStats.getD default).totalDocsExamined doc.docsExamined)
        (jsOr (er.executionStats.getD default).totalDocsReturned doc.docsReturned) :=
  calculateEfficiency_eq_spec er doc

/-- Evaluation of the efficiency at a summary reporting 1 document examined
and 5 returned: the unclamped rounded percentage is 500. -/
theorem calculateEfficiency_overUnity : calculateEfficiency erOverUnity docBlank = 500 := by
  show jsMathRound ((((5 : Nat) : ℚ)) / (((1 : Nat) : ℚ)) * 100) = 500
  unfold jsMathRound
  norm_num

/-- C2: the claim asserts the diagnostic efficiency is clamped into
[0, 100] for every input; the code applies no clamp, so a summary with more
documents returned than examined (1 examined, 5 returned) yields 500. -/
theorem claim2_counterexample : 100 < calculateEfficiency erOverUnity docBlank := by
  rw [calculateEfficiency_overUnity]
  norm_num

/-- C2 (amended): the efficiency is always nonnegative, and it is at most
100 whenever the effective returned counter does not exceed the effective
examined counter; no clamp is applied, and the value can exceed 100: at a
summary reporting 1 document examined and 5 returned it is 500. -/
theorem claim2_efficiency_bounds (er : ExplainResult) (doc : ProfileDoc) :
    (0 ≤ calculateEfficiency er doc ∧
      (jsOr (er.executionStats.getD default).totalDocsReturned doc.docsReturned ≤
          jsOr (er.executionStats.getD default).totalDocsExamined doc.docsExamined →
        calculateEfficiency er doc ≤ 100)) ∧
    100 < calculateEfficiency erOverUnity docBlank := by
  refine ⟨?_, ?_⟩
  · rw [calculateEfficiency_eq_spec]
    exact ⟨specEfficiency_nonneg _ _, fun h => specEfficiency_le_100 _ _ h⟩
  · rw [calculateEfficiency_overUnity]
    norm_num

/-- Witness for C2 (amended) at a selective summary: 5 returned out of 50
examined. -/
theorem claim2_witness :
    0 ≤ calculateEfficiency erHalf docBlank ∧ calculateEfficiency erHalf docBlank ≤ 100 :=
  ⟨(claim2_efficiency_bounds erHalf docBlank).1.1,
    (claim2_efficiency_bounds erHalf docBlank).1.2 (by decide)⟩

/-- C5: the flattened stage list is the node's entry followed by the
flattenings of its children (the `inputStage` link first, then the
`inputStages` in order) one level deeper, its length is the total node
count of the tree, and the entry records exactly the depth it was visited
at.  This equation makes the list a pre-order traversal: a node's entry
precedes every entry of its descendants, entries of an earlier sibling
subtree precede those of a later sibling, and each child is flattened at
depth one greater than its parent. -/
theorem claim5_flatten_pre_order (t : RawStage) (d : Nat) :
    flattenStages t d =
      mkStageEntry t.dataOf d ::
        ((t.childrenOf).map (fun c => flattenStages c (d + 1))).flatten ∧
    (flattenStages t d).length = nodeCount t ∧
    (mkStageEntry t.dataOf d).depth = d :=
  ⟨flattenStages_pre_order t d, flattenStages_length t d, rfl⟩

/-- C6: the deduplicated index list of a diagnostic has no duplicates,
holds exactly the index names collected from the stage tree's nodes, and
lists them strictly in order of first appearance in the traversal. -/
theorem claim6_indexes_first_seen (er : ExplainResult) :
    (extractIndexesUsed er).Nodup ∧
    (∀ s, s ∈ extractIndexesUsed er ↔ s ∈ collectedIndexNames er) ∧
    (extractIndexesUsed er).Pairwise
      (fun x y => (collectedIndexNames er).indexOf x < (collectedIndexNames er).indexOf y) := by
  unfold extractIndexesUsed
  rw [jsSetDedup_eq_dedupFirst]
  exact ⟨nodup_dedupFirst _, fun s => mem_dedupFirst s _, pairwise_indexOf_dedupFirst _⟩

/-- C8: once an operation is located, a failed plan execution produces the
degraded response: success is false, the operation's identity and context
(namespace, operation type, reconstructed command, profiler metadata) are
preserved, the explain plan is null, and the triggering error's message is
carried; a successful execution is flagged success true. -/
theorem claim8_degraded_response (queryId : String) (doc : ProfileDoc) (cmd : Command)
    (msg : String) (er : ExplainResult) :
    respondExplain queryId doc cmd (.error msg) =
      { success := false, errorMessage := some msg, queryId := queryId,
        namespaceStr := doc.ns, operation := doc.op, originalQuery := cmd,
        profilerData := mkProfilerMeta doc, explainPlan := none } ∧
    (respondExplain queryId doc cmd (.ok er)).success = true :=
  ⟨rfl, rfl⟩

/-- C9: when every top-level summary counter of the explain result is 0 or
absent, the performance block silently falls back to the profiled
operation's recorded metrics, and the reported efficiency is the canonical
formula applied to the historical record rather than the fresh plan. -/
theorem claim9_historical_fallback (er : ExplainResult) (doc : ProfileDoc)
    (h1 : (er.executionStats.getD default).executionTimeMillis = 0)
    (h2 : (er.executionStats.getD default).totalKeysExamined = 0)
    (h3 : (er.executionStats.getD default).totalDocsExamined = 0)
    (h4 : (er.executionStats.getD default).totalDocsReturned = 0) :
    (mkPerformance er doc).executionTimeMillis = doc.millis ∧
    (mkPerformance er doc).totalKeysExamined = doc.keysExamined ∧
    (mkPerformance er doc).totalDocsExamined = doc.docsExamined ∧
    (mkPerformance er doc).totalDocsReturned = doc.docsReturned ∧
    (mkPerformance er doc).efficiency = specEfficiency doc.docsExamined doc.docsReturned := by
  refine ⟨?_, ?_, ?_, ?_, ?_⟩
  · simp [mkPerformance, jsOr, h1]
  · simp [mkPerformance, jsOr, h2]
  · simp [mkPerformance, jsOr, h3]
  · simp [mkPerformance, jsOr, h4]
  · show calculateEfficiency er doc = _
    rw [calculateEfficiency_eq_spec, h3, h4]
    simp [jsOr]

/-- Witness for C9 at an explain result with no execution statistics and a
historical record of 50 examined, 5 returned. -/
theorem claim9_witness :
    (mkPerformance erNone docHist).executionTimeMillis = docHist.millis ∧
    (mkPerformance erNone docHist).totalKeysExamined = docHist.keysExamined ∧
    (mkPerformance erNone docHist).totalDocsExamined = docHist.docsExamined ∧
    (mkPerformance erNone docHist).totalDocsReturned = docHist.docsReturned ∧
    (mkPerformance erNone docHist).efficiency =
      specEfficiency docHist.docsExamined docHist.docsReturned :=
  claim9_historical_fallback erNone docHist rfl rfl rfl rfl

/-- C10: the trend-side efficiency utility returns 100 when docsExamined is
0, 0 when docsReturned is 0 (and something was examined), and otherwise the
unrounded percentage of docsReturned over the larger of docsExamined and
keysExamined, clamped into [0, 100]; the result always lies in [0, 100],
and on a concrete input (3 returned, 3 examined, 10 keys examined) it
differs from the diagnostic engine's canonical efficiency. -/
theorem claim10_trend_efficiency (doc : ProfileDoc) :
    (doc.docsExamined = 0 → calculateQueryEfficiency doc = 100) ∧
    (doc.docsExamined ≠ 0 → doc.docsReturned = 0 → calculateQueryEfficiency doc = 0) ∧
    (doc.docsExamined ≠ 0 → doc.docsReturned ≠ 0 →
      calculateQueryEfficiency doc =
        min 100 (max 0 ((doc.docsReturned : ℚ) /
          ((max doc.docsExamined doc.keysExamined : Nat) : ℚ) * 100))) ∧
    0 ≤ calculateQueryEfficiency doc ∧ calculateQueryEfficiency doc ≤ 100 ∧
    calculateQueryEfficiency trendDoc ≠ ((calculateEfficiency erTrend trendDoc : ℤ) : ℚ) := by
  refine ⟨?_, ?_, ?_, ?_, ?_, ?_⟩
  · intro h
    simp [calculateQueryEfficiency, h]
  · intro h1 h2
    simp [calculateQueryEfficiency, h1, h2]
  · intro h1 h2
    simp [calculateQueryEfficiency, h1, h2]
  · unfold calculateQueryEfficiency
    split_ifs with h1 h2
    · norm_num
    · norm_num
    · exact le_min (by norm_num) (le_max_left 0 _)
  · unfold calculateQueryEfficiency
    split_ifs with h1 h2
    · norm_num
    · norm_num
    · exact min_le_left _ _
  · have hl : calculateQueryEfficiency trendDoc = 30 := by
      show min 100 (max 0 ((((3 : Nat) : ℚ)) /
        (((max (3 : Nat) (10 : Nat) : Nat) : ℚ)) * 100)) = 30
      norm_num
    have hr : calculateEfficiency erTrend trendDoc = 100 := by
      show jsMathRound ((((3 : Nat) : ℚ)) / (((3 : Nat) : ℚ)) * 100) = 100
      unfold jsMathRound
      norm_num
    rw [hl, hr]
    norm_num

/-- Witness for C10 at the concrete trend record: 3 returned, 3 examined,
10 keys examined, where the non-degenerate branch applies. -/
theorem claim10_witness :
    calculateQueryEfficiency trendDoc =
      min 100 (max 0 ((trendDoc.docsReturned : ℚ) /
        ((max trendDoc.docsExamined trendDoc.keysExamined : Nat) : ℚ) * 100)) ∧
    0 ≤ calculateQueryEfficiency trendDoc :=
  ⟨(claim10_trend_efficiency trendDoc).2.2.1 (by decide) (by decide),
    (claim10_trend_efficiency trendDoc).2.2.2.1⟩

/-- C3: the claim says aggregate reconstruction fails exactly when the
logged pipeline is not a non-empty stage sequence; the code's check
`command.pipeline && Array.isArray(command.pipeline)` accepts the empty
array (arrays are truthy in JavaScript), so an aggregate command whose
pipeline is the empty array is reconstructed successfully instead of
failing. -/
theorem claim3_counterexample :
    hasNonEmptyStagePipeline aggEmptyCmd = false ∧
      (reconstructExplainRequest "aggregate" aggEmptyCmd).isOk = true := by
  constructor
  · rfl
  · rfl

/-- C3 (amended): reconstruction fails exactly when the operation type is
aggregate and the logged pipeline field is not an array (a pipeline that is
an empty array is accepted); reconstruction of every other operation type
always succeeds. -/
theorem claim3_reconstruction_failure (op : String) (cmd : Command) :
    (reconstructExplainRequest op cmd).isOk = (!(op == "aggregate") || isArrayPipeline cmd) := by
  unfold reconstructExplainRequest
  split_ifs with h1 h2 h3 h4 h5
  · have hne : op ≠ "aggregate" := by
      rcases h1 with h | h <;> subst h <;> decide
    have hb : (op == "aggregate") = false := beq_eq_false_iff_ne.mpr hne
    simp [Except.isOk, Except.toBool, hb]
  · have hb : (op == "aggregate") = false := beq_eq_false_iff_ne.mpr (by subst h2; decide)
    simp [Except.isOk, Except.toBool, hb]
  · have hne : op ≠ "aggregate" := by
      rcases h3 with h | h <;> subst h <;> decide
    have hb : (op == "aggregate") = false := beq_eq_false_iff_ne.mpr hne
    simp [Except.isOk, Except.toBool, hb]
  · have hb : (op == "aggregate") = false := beq_eq_false_iff_ne.mpr (by subst h4; decide)
    simp [Except.isOk, Except.toBool, hb]
  · subst h5
    unfold isArrayPipeline
    cases hp : cmd.pipeline with
    | none => simp [Except.isOk, Except.toBool]
    | some pv =>
      cases pv with
      | arr stages => simp [Except.isOk, Except.toBool]
      | other b => simp [Except.isOk, Except.toBool]
  · have hb : (op == "aggregate") = false := beq_eq_false_iff_ne.mpr h5
    simp [Except.isOk, Except.toBool, hb]

/-- C4: the claim says the locator falls back to literal-identifier or
comment matching whenever the exact ObjectId lookup yields no match; in the
code the fallback runs only from the ObjectId constructor's catch block, so
a syntactically valid ObjectId that matches no document identifier yields
no result at all even though the fallback lookup would have matched the
command's comment field. -/
theorem claim4_counterexample :
    validObjectIdHex "aaaaaaaaaaaaaaaaaaaaaaaa" = true ∧
    locateProfileDoc trapLog "aaaaaaaaaaaaaaaaaaaaaaaa" = none ∧
    fallbackFind trapLog "aaaaaaaaaaaaaaaaaaaaaaaa" = some docCommentTrap := by
  refine ⟨by decide, by decide, by decide⟩

/-- C4 (amended): the locator attempts the exact document-identifier match
when the identifier is a valid ObjectId representation and then never falls
back; the literal-identifier / comment fallback runs only when the
representation is invalid.  Whatever is found satisfies the corresponding
match predicate, and the route returns exactly one located operation or the
not-found error. -/
theorem claim4_locator_fallback (log : List ProfileDoc) (queryId : String) :
    (locateProfileDoc log queryId =
        if validObjectIdHex queryId = true then findByObjectId log queryId
        else fallbackFind log queryId) ∧
    (∀ d, locateProfileDoc log queryId = some d →
      locateStep log queryId = .ok d ∧
        (if validObjectIdHex queryId = true then d.idVal = .oid queryId
         else d.idVal = .strId queryId ∨ d.command.comment = some queryId)) ∧
    (locateProfileDoc log queryId = none → locateStep log queryId = .error "NotFoundError") := by
  refine ⟨rfl, ?_, ?_⟩
  · intro d hd
    refine ⟨by simp [locateStep, hd], ?_⟩
    unfold locateProfileDoc at hd
    by_cases hv : validObjectIdHex queryId = true
    · rw [if_pos hv] at hd
      rw [if_pos hv]
      have := List.find?_some hd
      simpa using this
    · rw [if_neg hv] at hd
      rw [if_neg hv]
      have := List.find?_some hd
      simpa using this
  · intro h
    simp [locateStep, h]

/-- Witness for C4 (amended) at an invalid ObjectId representation matched
through the command's comment field. -/
theorem claim4_witness :
    locateStep tagLog "my-tag" = .ok docTag ∧
      (if validObjectIdHex "my-tag" = true then docTag.idVal = .oid "my-tag"
       else docTag.idVal = .strId "my-tag" ∨ docTag.command.comment = some "my-tag") :=
  (claim4_locator_fallback tagLog "my-tag").2.1 docTag (by decide)

/-- C7: the missing-index recommendation appears in the emitted list exactly
when the full-scan flag is true and the reconstructed filter has at least
one field; when it appears it carries priority high and suggests an index
on exactly the filter (hence on the filter's field set), and it never
appears for an empty filter even under a full scan. -/
theorem claim7_missing_index (er : ExplainResult) (cmd : Command) :
    (generateIndexRecommendations er cmd).find? (fun r => r.type == "missing_index") =
      if isCollectionScan er = true ∧ 0 < (recommendationFilter cmd).length then
        some { type := "missing_index", priority := "high",
               message := "Consider creating an index on the query filter fields",
               suggestedIndex := some (recommendationFilter cmd),
               reason := "Collection scan detected - query is examining all documents" }
      else none := by
  have hm : (("missing_index" : String) == "missing_index") = true := by decide
  have hs : (("sort_index" : String) == "missing_index") = false := by decide
  have hl : (("low_efficiency" : String) == "missing_index") = false := by decide
  by_cases hscan : isCollectionScan er = true <;>
    by_cases hf : 0 < (recommendationFilter cmd).length <;>
      by_cases hsort : 0 < (cmd.sort.getD []).length <;>
        by_cases hlow : 0 < (er.executionStats.getD default).totalDocsExamined ∧
            0 < (er.executionStats.getD default).totalDocsReturned ∧
            ((er.executionStats.getD default).totalDocsReturned : ℚ) /
              ((er.executionStats.getD default).totalDocsExamined : ℚ) * 100 < 10 <;>
          simp [generateIndexRecommendations, hscan, hf, hsort, hlow,
            List.find?_append, List.find?, hm, hs, hl]
